import Mathlib

/-!
Verification of the GoBrev streaming AI client (`src/utils/ai.go`).

The Go source is shallowly embedded: pure helper functions become Lean
functions over `List Char` / `String`; the HTTP layer, the JSON library and
wall-clock time are abstracted as explicit oracle parameters; the retry loop
of `Chat` becomes a fuel-based recursion (the fuel is `maxRetries + 1`, the
exact number of iterations of the Go `for` loop), instrumented with an event
trace recording session creations, streaming calls and backoff sleeps.

Machine integers: `time.Duration` is int64 nanoseconds; the modelled
configuration values (1s base delay, 30s ceiling, at most a handful of
doublings) stay far below 2^63, where Go's float64/int64 round trips are
exact, so delays are modelled as `ℤ` nanoseconds and the value of
`math.Sin(float64(time.Now().UnixNano()))` is an explicit parameter `s : ℚ`
with `-1 ≤ s ≤ 1`.
-/

namespace GoBrev

/-! ### Go string primitives (`strings` package subset used by ai.go) -/

/-- Model of `unicode.IsSpace` on the rune set Go actually treats as whitespace
(Latin-1 range plus the two extra Latin-1 spaces). -/
def goIsSpace (c : Char) : Bool :=
  c = ' ' || c = '\t' || c = '\n' || c = '\x0b' || c = '\x0c' ||
    c = '\r' || c = '\u0085' || c = ' '

/-- Model of `strings.TrimSpace` on the character list of a string. -/
def goTrim (l : List Char) : List Char :=
  ((l.dropWhile goIsSpace).reverse.dropWhile goIsSpace).reverse

/-- Model of `strings.TrimSpace` on a `String`. -/
def goTrimS (s : String) : String :=
  String.mk (goTrim s.toList)

/-- Whether `pat` occurs as a contiguous sublist of `l`. -/
def listContainsSub (pat : List Char) : List Char → Bool
  | [] => pat.isEmpty
  | c :: rest => pat.isPrefixOf (c :: rest) || listContainsSub pat rest

/-- Model of `strings.Contains s pat` (substring test). -/
def strContains (s pat : String) : Bool :=
  listContainsSub pat.toList s.toList

/-! ### Messages, input clipping and history trimming -/

/-- Model of `ChatMessage` (role + content). -/
structure ChatMessage where
  role : String
  content : String
deriving DecidableEq, Repr

/-- Model of `maxUserInputLength`. -/
def maxUserInputLength : ℕ := 3500

/-- Model of `maxHistoryMessages`. -/
def maxHistoryMessages : ℕ := 30

/-- Model of `clipUserInput`: trim whitespace, then clip to `maxUserInputLength` runes,
appending a horizontal-ellipsis marker when clipped. -/
def clipUserInput (text : String) : String :=
  let trimmed := goTrim text.toList
  if trimmed.length > maxUserInputLength then
    String.mk (trimmed.take maxUserInputLength ++ ['…'])
  else String.mk trimmed

/-- The `for` loop of `trimMessages` that moves the first message with role
`"system"` (wherever it occurs) into `system` and every other message, in
order, into `rest`.  Returns `(system-message?, rest)`. -/
def extractFirstSystem : List ChatMessage → Option ChatMessage × List ChatMessage
  | [] => (none, [])
  | m :: ms =>
    if m.role = "system" then (some m, ms)
    else
      let p := extractFirstSystem ms
      (p.1, m :: p.2)

/-- Model of `trimMessages`: bound the history to `maxHistoryMessages`, keeping the
first system message (if any) plus the most recent remaining messages. -/
def trimMessages (messages : List ChatMessage) : List ChatMessage :=
  if messages.length ≤ maxHistoryMessages then messages
  else
    let p := extractFirstSystem messages
    let limit := if p.1.isSome then maxHistoryMessages - 1 else maxHistoryMessages
    let rest := if p.2.length > limit then p.2.drop (p.2.length - limit) else p.2
    (match p.1 with | some m => [m] | none => []) ++ rest

/-! ### `cleanResponse` -/

/-- Model of `strings.ReplaceAll text "\r\n" "\n"` (leftmost, non-overlapping). -/
def replaceCRLF : List Char → List Char
  | '\r' :: '\n' :: rest => '\n' :: replaceCRLF rest
  | c :: rest => c :: replaceCRLF rest
  | [] => []

/-- Scanner state for `strings.Count cleaned "\x60\x60\x60"`: `k` is the number
of consecutive backticks pending (0, 1 or 2); a third backtick completes one
non-overlapping occurrence and resets the scan, exactly as Go's leftmost
non-overlapping `strings.Count` does for a uniform pattern. -/
def countTBAux (k : ℕ) : List Char → ℕ
  | [] => 0
  | c :: rest =>
    if c = '\x60' then
      (if k = 2 then countTBAux 0 rest + 1 else countTBAux (k + 1) rest)
    else countTBAux 0 rest

/-- Number of non-overlapping triple-backtick fences, as counted by the source's
`strings.Count(cleaned, "\x60\x60\x60")`. -/
def countTB (l : List Char) : ℕ := countTBAux 0 l

/-- Model of `strings.Contains cleaned "\n\n\n\n"`. -/
def hasFourNl : List Char → Bool
  | '\n' :: '\n' :: '\n' :: '\n' :: _ => true
  | _ :: rest => hasFourNl rest
  | [] => false

/-- One pass of `strings.ReplaceAll cleaned "\n\n\n\n" "\n\n\n"` (leftmost,
non-overlapping). -/
def collapseStep : List Char → List Char
  | '\n' :: '\n' :: '\n' :: '\n' :: rest => '\n' :: '\n' :: '\n' :: collapseStep rest
  | c :: rest => c :: collapseStep rest
  | [] => []

/-- The source's `for strings.Contains … strings.ReplaceAll …` loop, run with
an explicit fuel.  Each pass strictly shrinks the list (proved below), so fuel
`l.length` is enough to reach the loop's fixed point. -/
def collapseLoopF : ℕ → List Char → List Char
  | 0, l => l
  | fuel + 1, l => if hasFourNl l then collapseLoopF fuel (collapseStep l) else l

/-- The blank-line collapsing loop of `cleanResponse`. -/
def collapseLoop (l : List Char) : List Char := collapseLoopF l.length l

/-- Model of `cleanResponse` on the character list: normalize CRLF, trim, close an odd
number of code fences, collapse runs of four-or-more newlines down to three. -/
def cleanResponseL (l : List Char) : List Char :=
  if l = [] then []
  else
    let c1 := replaceCRLF l
    let c2 := goTrim c1
    let c3 := if countTB c2 % 2 = 1 then c2 ++ ['\n', '\x60', '\x60', '\x60'] else c2
    collapseLoop c3

/-- Model of `cleanResponse`. -/
def cleanResponse (text : String) : String :=
  String.mk (cleanResponseL text.toList)

/-! ### Stream reading (`streamCompletion`'s line-consumption loop)

The loop reads `'\n'`-terminated lines from the response body; its input is
modelled as the list of those lines (delimiter stripped — the subsequent
`strings.TrimSpace` of the source removes it anyway).  `json.Unmarshal` is the
Go standard library, external to this repository; it is abstracted as a
`decode` parameter returning `none` exactly when unmarshalling errors. -/

/-- Model of `UsageStats`. -/
structure UsageStats where
  promptTokens : ℤ
  completionTokens : ℤ
  totalTokens : ℤ
deriving DecidableEq, Repr

/-- Model of `zaiChunkData` (the `data` field of a stream chunk). -/
structure ZaiChunkData where
  deltaContent : String
  phase : String
  done : Bool
  usage : Option UsageStats
deriving DecidableEq, Repr

/-- Model of `zaiStreamChunk`. -/
structure ZaiStreamChunk where
  type : String
  data : ZaiChunkData
deriving DecidableEq, Repr

/-- Mutable state of the read loop: the `strings.Builder`, the last usage
snapshot, and the `firstContentChunk` flag. -/
structure StreamState where
  builder : String
  usage : Option UsageStats
  firstContentChunk : Bool
deriving DecidableEq, Repr

/-- Initial loop state. -/
def initStreamState : StreamState := ⟨"", none, true⟩

/-- The body-consumption loop of `streamCompletion`: trim each line, ignore
lines without the `"data: "` event marker, stop at the `[DONE]` sentinel or at
a chunk whose `done` flag is set, skip undecodable payloads, append non-empty
`delta_content`, record the latest usage snapshot.  End of the line list is
physical end-of-stream (`io.EOF`), which also ends the loop normally. -/
def processLines (decode : String → Option ZaiStreamChunk) :
    List String → StreamState → StreamState
  | [], st => st
  | line :: rest, st =>
    let l := goTrim line.toList
    if l = [] then processLines decode rest st
    else if ¬ ("data: ".toList.isPrefixOf l) then processLines decode rest st
    else
      let payload := String.mk (goTrim (l.drop 6))
      if payload = "[DONE]" then st
      else
        match decode payload with
        | none => processLines decode rest st
        | some chunk =>
          let st1 :=
            if chunk.data.deltaContent ≠ "" then
              { st with builder := st.builder ++ chunk.data.deltaContent,
                        firstContentChunk := false }
            else st
          let st2 :=
            match chunk.data.usage with
            | some u => { st1 with usage := some u }
            | none => st1
          if chunk.data.done then st2 else processLines decode rest st2

/-- The answer `streamCompletion` returns when the read loop ends normally. -/
def streamAnswer (decode : String → Option ZaiStreamChunk) (lines : List String) : String :=
  cleanResponse (processLines decode lines initStreamState).builder

/-! #### Spec-side description of the accumulation (for the refinement proof)

§4.3 of the spec: each line is classified into an ignored line, the terminal
sentinel, or a decoded chunk; the answer is the concatenation, in arrival
order, of the non-empty delta-content fields of the chunks that precede the
first terminal event (a `[DONE]` sentinel or a chunk with its done flag set,
that chunk's own delta included). -/

/-- A classified line, per the spec's parsing rule. -/
inductive StreamEvent where
  | sentinel
  | chunk (c : ZaiChunkData)

/-- Classify one line (spec's parsing rule; `none` = ignored line). -/
def lineEvent (decode : String → Option ZaiStreamChunk) (line : String) :
    Option StreamEvent :=
  let l := goTrim line.toList
  if l = [] then none
  else if ¬ ("data: ".toList.isPrefixOf l) then none
  else
    let payload := String.mk (goTrim (l.drop 6))
    if payload = "[DONE]" then some .sentinel
    else (decode payload).map (fun c => .chunk c.data)

/-- Delta contents of the chunks up to and including the first terminal event. -/
def deltasUpToStop : List StreamEvent → List String
  | [] => []
  | .sentinel :: _ => []
  | .chunk c :: rest =>
    (if c.deltaContent ≠ "" then [c.deltaContent] else []) ++
      (if c.done then [] else deltasUpToStop rest)

/-- Concatenation of a list of strings. -/
def strJoin : List String → String
  | [] => ""
  | s :: rest => s ++ strJoin rest

/-- The spec's description of the assembled (pre-normalization) answer. -/
def assembledSpec (decode : String → Option ZaiStreamChunk) (lines : List String) : String :=
  strJoin (deltasUpToStop (lines.filterMap (lineEvent decode)))

/-! ### Go error values

An `error` value, as `isRetryableError` can observe it: the three
network-error shapes it type-asserts against (carrying their `Timeout()` and
`Temporary()` results), a plain message error (`errors.New` / `fmt.Errorf`
without `%w`), and a wrapping error (`fmt.Errorf "…: %w"`, whose `Error()`
string is the wrap text followed by the inner error's string, and which does
not satisfy the type assertions). -/

inductive GoError where
  | netErr (timeout temporary : Bool) (msg : String)
  | dnsErr (timeout temporary : Bool) (msg : String)
  | opErr (timeout temporary : Bool) (msg : String)
  | basic (msg : String)
  | wrapped (wrapText : String) (inner : GoError)
deriving DecidableEq, Repr

/-- The `Error()` string of an error value. -/
def errString : GoError → String
  | .netErr _ _ m => m
  | .dnsErr _ _ m => m
  | .opErr _ _ m => m
  | .basic m => m
  | .wrapped w inner => w ++ errString inner

/-- Whether `err.(net.Error)` succeeds (all three network shapes implement the
`net.Error` interface; wrapping errors and plain message errors do not). -/
def isNetErrorCase : GoError → Bool
  | .netErr _ _ _ => true
  | .dnsErr _ _ _ => true
  | .opErr _ _ _ => true
  | _ => false

/-- Model of `isRetryableError`, in the exact order of the source's checks: the
`net.Error` assertion (retryable on timeout-or-temporary, otherwise fall
through), the `*net.DNSError` and `*net.OpError` assertions (which return
their flag disjunction directly), the bare `"EOF"` string, and the three
timeout substrings. -/
def isRetryableError : Option GoError → Bool
  | none => false
  | some e =>
    let netFlags : Bool :=
      match e with
      | .netErr t p _ => t || p
      | .dnsErr t p _ => t || p
      | .opErr t p _ => t || p
      | _ => false
    if netFlags then true
    else
      match e with
      | .dnsErr t p _ => p || t
      | .opErr t p _ => p || t
      | _ =>
        if errString e = "EOF" then true
        else if strContains (errString e) "AI response timeout" ||
            strContains (errString e) "no content chunks received" ||
            strContains (errString e) "response incomplete" then true
        else false

/-- The no-content liveness timeout raised by the supervising frame. -/
def noContentTimeoutErr : GoError :=
  .basic "AI response timeout: no content chunks received within 3 seconds"

/-- The incomplete-response liveness timeout raised by the supervising frame. -/
def incompleteTimeoutErr : GoError :=
  .basic "AI response timeout: response incomplete after 30 seconds"

/-- The read loop's internally recorded timeout (`streamErr`), which carries
the same message as the frame's no-content timeout. -/
def internalReadTimeoutErr : GoError :=
  .basic "AI response timeout: no content chunks received within 3 seconds"

/-- The empty-session-id error of `createChat`. -/
def emptyChatIdErr : GoError := .basic "Z.ai returned empty chat id"

/-! ### Client configuration and the backoff computation -/

/-- The `AIClient` fields the core logic reads: `maxRetries`, `retryDelay` and
`maxRetryDelay` in nanoseconds (`time.Duration`). -/
structure AIClientCfg where
  maxRetries : ℕ
  retryDelay : ℤ
  maxRetryDelay : ℤ
deriving DecidableEq, Repr

/-- The configuration `NewAIClient` builds: 3 retries, 1s base delay, 30s
delay ceiling. -/
def defaultCfg : AIClientCfg :=
  ⟨3, 1000000000, 30000000000⟩

/-- Go's float64→int64 conversion on a rational value: truncation toward
zero. -/
def ratTrunc (q : ℚ) : ℤ :=
  if 0 ≤ q then ⌊q⌋ else ⌈q⌉

/-- Model of `calculateRetryDelay`.  The computation is exact in float64 for every
configuration this client uses, so it is modelled over `ℤ`/`ℚ`; `s` stands
for the value of `math.Sin(float64(time.Now().UnixNano()))`, a real in
`[-1, 1]` chosen by the wall clock.  Note the ceiling clamp is applied to the
pre-jitter delay only. -/
def calculateRetryDelay (ai : AIClientCfg) (attempt : ℕ) (s : ℚ) : ℤ :=
  let delay := ai.retryDelay * 2 ^ attempt
  let delay := if delay > ai.maxRetryDelay then ai.maxRetryDelay else delay
  delay + ratTrunc ((delay : ℚ) * (1 / 2) * s)

/-- The pre-jitter component of the backoff delay. -/
def retryDelayComponent (ai : AIClientCfg) (attempt : ℕ) : ℤ :=
  let delay := ai.retryDelay * 2 ^ attempt
  if delay > ai.maxRetryDelay then ai.maxRetryDelay else delay

/-! ### `createChat`

The HTTP round trip and the JSON decode of its body are external effects;
they are abstracted as one oracle value describing what the network returned.
(The `json.Marshal` of the request payload cannot fail — the payload is a
fixed shape of strings, numbers and booleans — and `http.NewRequest` on the
constant method/URL cannot fail either, so neither early return is
reachable and they are not modelled.) -/

/-- What the `POST /v1/chats/new` round trip produced: a transport-layer
error, or a status code, raw body, and the result of decoding the body into
`struct { ID string }` (`.ok ""` models a body whose `id` field is absent or
empty). -/
inductive CreateHTTP where
  | netFail (e : GoError)
  | resp (status : ℕ) (body : String) (decoded : Except GoError String)
deriving Repr

/-- Model of `createChat`.  The second component of the result is the client value
after the call: the method body writes no `AIClient` field, so it is the
receiver unchanged. -/
def createChat (ai : AIClientCfg) (_firstMessage : String) (h : CreateHTTP) :
    Except GoError String × AIClientCfg :=
  match h with
  | .netFail e => (.error e, ai)
  | .resp status body decoded =>
    if status ≠ 200 then
      (.error (.basic ("create chat failed with status " ++ toString status ++ ": " ++ body)), ai)
    else
      match decoded with
      | .error e => (.error (.wrapped "failed to decode create chat response: " e), ai)
      | .ok id => if id = "" then (.error emptyChatIdErr, ai) else (.ok id, ai)

/-! ### The retry loop of `Chat`

Each attempt performs `createChat` and, on success, `streamCompletion`; both
are external round trips, abstracted as an oracle indexed by the attempt
number.  The run is instrumented with an event trace: one `createCall` per
`createChat` invocation (recording the seed message and the outcome), one
`streamCall` per `streamCompletion` invocation (recording the session id it
was handed), and one `slept` per backoff sleep. -/

/-- Per-attempt outcomes of the two remote calls. -/
structure AttemptOracle where
  create : ℕ → String → Except GoError String
  stream : ℕ → String → Except GoError (String × Option UsageStats)

instance : DecidableEq (Except GoError String) := fun a b =>
  match a, b with
  | .ok x, .ok y => decidable_of_iff (x = y) (by simp)
  | .error x, .error y => decidable_of_iff (x = y) (by simp)
  | .ok _, .error _ => isFalse (by simp)
  | .error _, .ok _ => isFalse (by simp)

/-- Observable events of one `Chat` execution. -/
inductive ChatEvent where
  | createCall (attempt : ℕ) (firstMsg : String) (result : Except GoError String)
  | streamCall (attempt : ℕ) (chatID : String)
  | slept (attempt : ℕ)
deriving DecidableEq, Repr

/-- The attempt index an event belongs to. -/
def ChatEvent.attemptIdx : ChatEvent → ℕ
  | .createCall k _ _ => k
  | .streamCall k _ => k
  | .slept k => k

/-- The `ChatResponse` fields `Chat` fills in on success (the `Created`
timestamp is wall-clock time and the `Model` echoes the request; both are
irrelevant to the verified claims and elided). -/
structure ChatResponse where
  id : String
  object : String
  role : String
  content : String
  finishReason : String
  usage : UsageStats
deriving DecidableEq, Repr

/-- The response value built on a successful attempt (zero-valued usage when
the stream never carried a snapshot). -/
def mkChatResponse (chatID answer : String) (usage : Option UsageStats) : ChatResponse :=
  ⟨chatID, "chat.completion", "assistant", answer, "stop", usage.getD ⟨0, 0, 0⟩⟩

/-- Result of a `Chat` call. -/
inductive ChatOut where
  | ok (resp : ChatResponse)
  | fail (e : GoError)
deriving DecidableEq, Repr

/-- The `for attempt := 0; attempt <= maxRetries; attempt++` loop.  `fuel` is
the number of loop iterations still permitted; the driver passes
`maxRetries + 1`, the exact iteration count of the Go loop, so the
fuel-exhaustion branch is the loop's fall-through return
(`"failed after %d attempts: %w"` — unreachable for `maxRetries : ℕ`, since
the last iteration always returns; the `lastErr.getD` default models `%w` of
a nil error and is likewise unreachable from the driver). -/
def chatLoop (o : AttemptOracle) (m : ℕ) (fm : String) :
    ℕ → ℕ → Option GoError → ChatOut × List ChatEvent
  | 0, _, lastErr =>
    (.fail (.wrapped ("failed after " ++ toString (m + 1) ++ " attempts: ")
        (lastErr.getD (.basic "%!w(<nil>)"))), [])
  | fuel + 1, attempt, _ =>
    match o.create attempt fm with
    | .error e =>
      let ev := ChatEvent.createCall attempt fm (.error e)
      if ¬ isRetryableError (some e) ∨ attempt = m then
        (.fail (.wrapped "failed to create Z.ai chat: " e), [ev])
      else
        let r := chatLoop o m fm fuel (attempt + 1) (some e)
        (r.1, ev :: .slept attempt :: r.2)
    | .ok chatID =>
      let ev := ChatEvent.createCall attempt fm (.ok chatID)
      let ev2 := ChatEvent.streamCall attempt chatID
      match o.stream attempt chatID with
      | .error e =>
        if ¬ isRetryableError (some e) ∨ attempt = m then
          (.fail (.wrapped "failed to complete Z.ai chat: " e), [ev, ev2])
        else
          let r := chatLoop o m fm fuel (attempt + 1) (some e)
          (r.1, ev :: ev2 :: .slept attempt :: r.2)
      | .ok (answer, usage) =>
        (.ok (mkChatResponse chatID answer usage), [ev, ev2])

/-- The `firstUser` computation of `Chat`: the first user-role message's
clipped content, or the literal `"hello"` when that is empty or no user
message exists. -/
def computeFirstUser (msgs : List ChatMessage) : String :=
  let fu :=
    match msgs.find? (fun m => m.role == "user") with
    | some m => clipUserInput m.content
    | none => ""
  if fu = "" then "hello" else fu

/-- Model of `Chat`: reject an empty message list, trim the history, compute the
session seed message, then run the retry loop.  (The `ChatOption` mutators
and sampling parameters only shape the outbound payload, which the oracle
abstracts, and are elided.) -/
def Chat (ai : AIClientCfg) (o : AttemptOracle) (messages : List ChatMessage) :
    ChatOut × List ChatEvent :=
  if messages.length = 0 then (.fail (.basic "no messages provided"), [])
  else
    chatLoop o ai.maxRetries (computeFirstUser (trimMessages messages))
      (ai.maxRetries + 1) 0 none

/-- Counterexample to C3 as stated: a 31-message history whose head is a
user message and which holds two system messages at positions 1 and 2.  The
trimmed result *starts* with a system message (though the input had no
leading one) and contains *two* system messages, contradicting "at most one
leading system message (if present) verbatim, followed by … non-system
messages". -/
def cexMsgs : List ChatMessage :=
  ⟨"user", "a"⟩ :: ⟨"system", "s1"⟩ :: ⟨"system", "s2"⟩ ::
    List.replicate 28 ⟨"user", "x"⟩

/-- Witness for C3 (amended) at a concrete input: 31 user messages trim to
the most recent 30. -/
def msW : List ChatMessage := List.replicate 31 ⟨"user", "x"⟩

/-- Model of Go `json.Unmarshal` (standard library, external to this
repository) into `zaiStreamChunk` on the two flat payloads of the spec's
Scenario D.  `zaiStreamChunk` reads `delta_content` only inside the nested
`"data"` object and the source defines no custom unmarshaller, so on a flat
payload such as `\x7b"delta_content":"Hello "\x7d` unmarshalling *succeeds*
(unknown top-level keys are ignored) but every field keeps its zero value:
the decoded chunk carries an empty delta, an empty phase, `done = false` and
no usage. -/
def decodeZaiFlat (s : String) : Option ZaiStreamChunk :=
  if s = "\x7b\"delta_content\":\"Hello \"\x7d" then
    some ⟨"", ⟨"", "", false, none⟩⟩
  else if s = "\x7b\"delta_content\":\"world\"\x7d" then
    some ⟨"", ⟨"", "", false, none⟩⟩
  else none

/-- Model of Go `json.Unmarshal` into `zaiStreamChunk` on the corresponding
*nested* payloads, the shape the repository's chunk type actually declares:
the text sits inside the `"data"` object, so it lands in
`chunk.data.deltaContent`. -/
def decodeZaiNested (s : String) : Option ZaiStreamChunk :=
  if s = "\x7b\"data\":\x7b\"delta_content\":\"Hello \"\x7d\x7d" then
    some ⟨"", ⟨"Hello ", "", false, none⟩⟩
  else if s = "\x7b\"data\":\x7b\"delta_content\":\"world\"\x7d\x7d" then
    some ⟨"", ⟨"world", "", false, none⟩⟩
  else none

/-- The three body lines of the spec's Scenario D, verbatim (flat payloads). -/
def scenarioDLines : List String :=
  ["data: \x7b\"delta_content\":\"Hello \"\x7d",
   "data: \x7b\"delta_content\":\"world\"\x7d",
   "data: [DONE]"]

/-- The same stream with the payloads in the nested shape `zaiStreamChunk`
declares. -/
def scenarioDNestedLines : List String :=
  ["data: \x7b\"data\":\x7b\"delta_content\":\"Hello \"\x7d\x7d",
   "data: \x7b\"data\":\x7b\"delta_content\":\"world\"\x7d\x7d",
   "data: [DONE]"]

/-! ### Retry exhaustion (C1) -/

/-- The failure an attempt ends with, if any: `(true, e)` for a `createChat`
failure, `(false, e)` for a `streamCompletion` failure, `none` for a
successful attempt. -/
def attemptErr (o : AttemptOracle) (fm : String) (k : ℕ) : Option (Bool × GoError) :=
  match o.create k fm with
  | .error e => some (true, e)
  | .ok id =>
    match o.stream k id with
    | .error e => some (false, e)
    | .ok _ => none

/-- The oracle of a world where every remote call fails with a bare `EOF`. -/
def oEOF : AttemptOracle :=
  ⟨fun _ _ => .error (.basic "EOF"), fun _ _ => .error (.basic "EOF")⟩

/-! ### One session per attempt, no session reuse (C8) -/

/-- Per-event invariant of a run whose next attempt is `a`: the event belongs
to attempt ≥ `a`; a creation call carries the seed `fm` and records exactly
the oracle's result for its own attempt; a streaming call carries precisely
the session id `createChat` returned during the same attempt. -/
def evOK (o : AttemptOracle) (fm : String) (a : ℕ) : ChatEvent → Prop
  | .createCall k s r => a ≤ k ∧ s = fm ∧ r = o.create k fm
  | .streamCall k id => a ≤ k ∧ o.create k fm = .ok id
  | .slept k => a ≤ k

/-- Whether an event is the creation call of attempt `k`. -/
def isCreateAt (k : ℕ) : ChatEvent → Bool
  | .createCall k' _ _ => k' == k
  | _ => false

/-- Whether an event is the streaming call of attempt `k`. -/
def isStreamAt (k : ℕ) : ChatEvent → Bool
  | .streamCall k' _ => k' == k
  | _ => false

/-- The oracle of a world where every remote call succeeds with a fixed id. -/
def oGood : AttemptOracle :=
  ⟨fun _ _ => .ok "sid-1", fun _ _ => .ok ("the answer", none)⟩

/-! ### Basic facts about `extractFirstSystem` -/

theorem extractFirstSystem_of_no_system (ms : List ChatMessage)
    (h : ∀ m ∈ ms, m.role ≠ "system") : extractFirstSystem ms = (none, ms) := by
  induction ms with
  | nil => rfl
  | cons m ms ih =>
    have hm : m.role ≠ "system" := h m (List.mem_cons_self m ms)
    have hrest : ∀ x ∈ ms, x.role ≠ "system" := fun x hx => h x (List.mem_cons_of_mem m hx)
    simp [extractFirstSystem, hm, ih hrest]

theorem extractFirstSystem_split (pre suf : List ChatMessage) (s : ChatMessage)
    (hs : s.role = "system") (hpre : ∀ m ∈ pre, m.role ≠ "system") :
    extractFirstSystem (pre ++ s :: suf) = (some s, pre ++ suf) := by
  induction pre with
  | nil => simp [extractFirstSystem, hs]
  | cons m pre ih =>
    have hm : m.role ≠ "system" := hpre m (List.mem_cons_self m pre)
    have hrest : ∀ x ∈ pre, x.role ≠ "system" := fun x hx => hpre x (List.mem_cons_of_mem m hx)
    simp [extractFirstSystem, hm, ih hrest]

/-! ### Lemmas about the fence counter and the blank-line collapse -/

theorem goIsSpace_ne_backtick {c : Char} (h : goIsSpace c = true) : c ≠ '\x60' := by
  intro rfl_eq
  subst rfl_eq
  simp [goIsSpace] at h

theorem countTBAux_cons_ne (k : ℕ) (c : Char) (l : List Char) (h : c ≠ '\x60') :
    countTBAux k (c :: l) = countTBAux 0 l := by
  simp [countTBAux, h]

theorem countTBAux_all_space (w : List Char) (hw : ∀ c ∈ w, goIsSpace c = true) :
    ∀ k, countTBAux k w = 0 := by
  induction w with
  | nil => intro k; rfl
  | cons c w ih =>
    intro k
    have hc : c ≠ '\x60' := goIsSpace_ne_backtick (hw c (List.mem_cons_self c w))
    rw [countTBAux_cons_ne k c w hc]
    exact ih (fun x hx => hw x (List.mem_cons_of_mem c hx)) 0

theorem countTBAux_append_space (a w : List Char) (hw : ∀ c ∈ w, goIsSpace c = true) :
    ∀ k, countTBAux k (a ++ w) = countTBAux k a := by
  induction a with
  | nil => intro k; simpa [countTBAux] using countTBAux_all_space w hw k
  | cons c a ih =>
    intro k
    by_cases hc : c = '\x60'
    · subst hc
      by_cases hk : k = 2 <;> simp [countTBAux, hk, ih]
    · simp [countTBAux, hc, ih]

theorem countTB_dropWhile_space (l : List Char) :
    countTB (l.dropWhile goIsSpace) = countTB l := by
  induction l with
  | nil => rfl
  | cons c l ih =>
    by_cases hc : goIsSpace c
    · rw [List.dropWhile_cons_of_pos hc, ih]
      simp only [countTB]
      rw [countTBAux_cons_ne 0 c l (goIsSpace_ne_backtick hc)]
    · rw [List.dropWhile_cons_of_neg hc]

theorem countTB_goTrim (l : List Char) : countTB (goTrim l) = countTB l := by
  unfold goTrim
  set l1 := l.dropWhile goIsSpace with hl1
  have h2 : countTB l1 = countTB l := countTB_dropWhile_space l
  rw [← h2]
  -- l1 = kept ++ trailing-whitespace, result is kept
  have hsplit : l1.reverse.takeWhile goIsSpace ++ l1.reverse.dropWhile goIsSpace = l1.reverse :=
    List.takeWhile_append_dropWhile goIsSpace l1.reverse
  have hdecomp :
      l1 = (l1.reverse.dropWhile goIsSpace).reverse ++ (l1.reverse.takeWhile goIsSpace).reverse := by
    conv_lhs => rw [← List.reverse_reverse l1, ← hsplit]
    rw [List.reverse_append]
  conv_rhs => rw [hdecomp]
  simp only [countTB]
  rw [countTBAux_append_space _ _ (fun c hc =>
    List.mem_takeWhile_imp (List.mem_reverse.mp hc)) 0]

theorem countTB_replaceCRLF (l : List Char) : countTB (replaceCRLF l) = countTB l := by
  suffices h : ∀ k, countTBAux k (replaceCRLF l) = countTBAux k l from h 0
  induction l using replaceCRLF.induct with
  | case1 rest ih =>
    intro k
    have h1 : replaceCRLF ('\r' :: '\n' :: rest) = '\n' :: replaceCRLF rest := rfl
    rw [h1, countTBAux_cons_ne k _ _ (by decide), countTBAux_cons_ne k _ _ (by decide),
      countTBAux_cons_ne 0 _ _ (by decide)]
    exact ih 0
  | case2 c rest hside ih =>
    intro k
    rw [replaceCRLF.eq_2 c rest hside]
    by_cases hc : c = '\x60'
    · subst hc
      by_cases hk : k = 2 <;> simp [countTBAux, hk, ih]
    · rw [countTBAux_cons_ne k _ _ hc, countTBAux_cons_ne k _ _ hc]
      exact ih 0
  | case3 => intro k; rfl

theorem collapseStep_length_le (l : List Char) : (collapseStep l).length ≤ l.length := by
  induction l using collapseStep.induct with
  | case1 rest ih =>
    have h1 : collapseStep ('\n' :: '\n' :: '\n' :: '\n' :: rest) =
        '\n' :: '\n' :: '\n' :: collapseStep rest := rfl
    simp only [h1, List.length_cons]
    omega
  | case2 c rest hside ih =>
    rw [collapseStep.eq_2 c rest hside]
    simp only [List.length_cons]
    omega
  | case3 => simp [collapseStep]

theorem collapseStep_length_lt (l : List Char) (h : hasFourNl l = true) :
    (collapseStep l).length < l.length := by
  induction l using collapseStep.induct with
  | case1 rest ih =>
    have h1 : collapseStep ('\n' :: '\n' :: '\n' :: '\n' :: rest) =
        '\n' :: '\n' :: '\n' :: collapseStep rest := rfl
    have h2 := collapseStep_length_le rest
    simp only [h1, List.length_cons]
    omega
  | case2 c rest hside ih =>
    rw [collapseStep.eq_2 c rest hside]
    have h2 : hasFourNl (c :: rest) = hasFourNl rest := hasFourNl.eq_2 c rest hside
    rw [h2] at h
    have := ih h
    simp only [List.length_cons]
    omega
  | case3 => simp [hasFourNl] at h

theorem collapseLoopF_fix (fuel : ℕ) :
    ∀ l : List Char, l.length ≤ fuel → hasFourNl (collapseLoopF fuel l) = false := by
  induction fuel with
  | zero =>
    intro l hl
    rw [List.length_eq_zero.mp (Nat.le_zero.mp hl)]
    rfl
  | succ fuel ih =>
    intro l hl
    rw [collapseLoopF]
    by_cases h4 : hasFourNl l
    · rw [if_pos h4]
      exact ih _ (by have := collapseStep_length_lt l h4; omega)
    · rw [if_neg h4]
      exact Bool.not_eq_true _ ▸ (by simpa using h4)

theorem hasFourNl_collapseLoop (l : List Char) : hasFourNl (collapseLoop l) = false :=
  collapseLoopF_fix l.length l le_rfl

/-- Claim C5: For every answer string `S` whose (CRLF-normalized, trimmed) text
contains an odd number of triple-backtick fences, `cleanResponse` returns the
trimmed text with one closing fence (`"\n\x60\x60\x60"`) appended and every run
of four-or-more newlines collapsed to three; for an even fence count no fence
is appended; and the result never contains a four-newline run.  The fence
count of `S` itself equals the internal count (trimming and CRLF
normalization cannot create or destroy fences), so the parity in the
statement is taken directly on `S`. -/
theorem cleanResponse_normalization (S : String) :
    (countTB S.toList % 2 = 1 →
      cleanResponseL S.toList =
        collapseLoop (goTrim (replaceCRLF S.toList) ++ ['\n', '\x60', '\x60', '\x60'])) ∧
    (countTB S.toList % 2 = 0 →
      cleanResponseL S.toList = collapseLoop (goTrim (replaceCRLF S.toList))) ∧
    hasFourNl (cleanResponseL S.toList) = false ∧
    cleanResponse S = String.mk (cleanResponseL S.toList) := by
  have hcount : countTB (goTrim (replaceCRLF S.toList)) = countTB S.toList := by
    rw [countTB_goTrim, countTB_replaceCRLF]
  by_cases hS : S.toList = []
  · refine ⟨?_, ?_, ?_, rfl⟩
    · intro hodd
      rw [hS] at hodd
      simp [countTB, countTBAux] at hodd
    · intro _
      rw [hS]
      rfl
    · rw [hS]
      rfl
  · refine ⟨?_, ?_, ?_, rfl⟩
    · intro hodd
      simp only [cleanResponseL, if_neg hS]
      rw [if_pos (by rw [hcount]; exact hodd)]
    · intro heven
      simp only [cleanResponseL, if_neg hS]
      rw [if_neg (by rw [hcount]; omega)]
    · simp only [cleanResponseL, if_neg hS]
      split_ifs with h
      · exact hasFourNl_collapseLoop _
      · exact hasFourNl_collapseLoop _

/-- Witness for C5 at a concrete input: `"\x60\x60\x60go\ncode"` has one
(odd) fence, and normalization appends the closing fence. -/
theorem cleanResponse_normalization_witness :
    countTB "```go\ncode".toList % 2 = 1 ∧
    cleanResponseL "```go\ncode".toList =
      collapseLoop (goTrim (replaceCRLF "```go\ncode".toList) ++ ['\n', '\x60', '\x60', '\x60']) :=
  ⟨by decide, (cleanResponse_normalization "```go\ncode").1 (by decide)⟩

/-! ### The history trimmer (C3) -/

theorem extractFirstSystem_shape (ms : List ChatMessage) :
    ((extractFirstSystem ms).1 = none ∧ (extractFirstSystem ms).2 = ms) ∨
    (∃ s, (extractFirstSystem ms).1 = some s ∧
      ms.length = (extractFirstSystem ms).2.length + 1) := by
  induction ms with
  | nil => exact Or.inl ⟨rfl, rfl⟩
  | cons m ms ih =>
    by_cases hm : m.role = "system"
    · right
      exact ⟨m, by simp [extractFirstSystem, hm]⟩
    · rcases ih with ⟨h1, h2⟩ | ⟨s, h1, h2⟩
      · left
        constructor
        · simp [extractFirstSystem, hm, h1]
        · simp [extractFirstSystem, hm, h2]
      · right
        refine ⟨s, ?_, ?_⟩
        · simp [extractFirstSystem, hm, h1]
        · simp [extractFirstSystem, hm]
          omega

/-- Claim C3, amended: `trimMessages`: sequences of length ≤ 30 are returned
unchanged; for longer sequences the result has length exactly 30 and is (a)
when no message has role `"system"`, the most recent 30 messages in original
order; (b) when a system message exists, the *first* system message —
wherever it occurs — hoisted to the front, followed by the most recent 29 of
the *remaining* messages (which may themselves include later system
messages) in original order.  (The original claim's "at most one *leading*
system message … followed by … *non-system* messages" fails; see the
counterexample.) -/
theorem trimMessages_amended (ms : List ChatMessage) :
    (ms.length ≤ 30 → trimMessages ms = ms) ∧
    (30 < ms.length →
      (trimMessages ms).length = 30 ∧
      ((∀ m ∈ ms, m.role ≠ "system") → trimMessages ms = ms.drop (ms.length - 30)) ∧
      (∀ pre s suf, ms = pre ++ s :: suf → s.role = "system" →
        (∀ m ∈ pre, m.role ≠ "system") →
        trimMessages ms = s :: (pre ++ suf).drop ((pre ++ suf).length - 29))) := by
  constructor
  · intro hle
    simp [trimMessages, maxHistoryMessages, hle]
  · intro hgt
    refine ⟨?_, ?_, ?_⟩
    · -- length is exactly 30
      rcases extractFirstSystem_shape ms with ⟨h1, h2⟩ | ⟨s, h1, h2⟩
      · simp only [trimMessages, maxHistoryMessages]
        rw [if_neg (by omega), h1, h2]
        simp only [Option.isSome_none, Bool.false_eq_true, if_false]
        rw [if_pos (by omega)]
        simp only [List.nil_append, List.length_drop]
        omega
      · simp only [trimMessages, maxHistoryMessages]
        rw [if_neg (by omega), h1]
        simp only [Option.isSome_some, if_true]
        rw [if_pos (by omega)]
        simp only [List.singleton_append, List.length_cons, List.length_drop]
        omega
    · -- no system message at all
      intro hns
      have h := extractFirstSystem_of_no_system ms hns
      have h1 : (extractFirstSystem ms).1 = none := by rw [h]
      have h2 : (extractFirstSystem ms).2 = ms := by rw [h]
      simp only [trimMessages, maxHistoryMessages]
      rw [if_neg (by omega), h1, h2]
      simp only [Option.isSome_none, Bool.false_eq_true, if_false]
      rw [if_pos (by omega)]
      simp
    · -- first system message hoisted to the front
      intro pre s suf hdec hs hpre
      have h := extractFirstSystem_split pre suf s hs hpre
      rw [← hdec] at h
      have h1 : (extractFirstSystem ms).1 = some s := by rw [h]
      have h2 : (extractFirstSystem ms).2 = pre ++ suf := by rw [h]
      have hlen : (pre ++ suf).length = ms.length - 1 := by
        subst hdec
        simp only [List.length_append, List.length_cons]
        omega
      simp only [trimMessages, maxHistoryMessages]
      rw [if_neg (by omega), h1, h2]
      simp only [Option.isSome_some, if_true]
      rw [if_pos (by omega)]
      simp

theorem trimMessages_claim_cex :
    30 < cexMsgs.length ∧
    cexMsgs.head?.map ChatMessage.role = some "user" ∧
    (trimMessages cexMsgs).head?.map ChatMessage.role = some "system" ∧
    ((trimMessages cexMsgs).filter (fun m => m.role == "system")).length = 2 := by
  decide

theorem trimMessages_amended_witness :
    trimMessages msW = msW.drop (msW.length - 30) :=
  ((trimMessages_amended msW).2 (by decide)).2.1 (by decide)

/-! ### The stream reader's accumulation (C4) -/

theorem strAppend_empty (s : String) : s ++ "" = s := by
  cases s with
  | mk l => exact congrArg String.mk (List.append_nil l)

theorem strEmpty_append (s : String) : "" ++ s = s := by
  cases s with
  | mk l => rfl

theorem strJoin_append (a b : List String) :
    strJoin (a ++ b) = strJoin a ++ strJoin b := by
  induction a with
  | nil => rw [List.nil_append, strJoin, strEmpty_append]
  | cons s a ih =>
    rw [List.cons_append, strJoin, strJoin, ih, String.append_assoc]

/-- Claim C4, amended: The read loop's accumulated answer is the
concatenation, in arrival order, of the non-empty delta-content fields of
the decodable chunks on `"data: "`-marked lines (all other lines ignored),
stopping at the `[DONE]` sentinel, at a chunk whose done flag is set, or at
physical end-of-stream — stated as a refinement against the spec-side
description `assembledSpec`, for every decoder, line list and starting
state.  On the spec's Scenario D stream, however, the repository's
`zaiStreamChunk` reads `delta_content` only inside the nested `"data"`
object, so `json.Unmarshal` of the flat payloads yields chunks with empty
deltas and the program assembles `""`, not `"Hello world"`; the spec's
intended answer is assembled exactly when the payloads carry the nested
shape the chunk type declares. -/
theorem streamReader_accumulation :
    (∀ (decode : String → Option ZaiStreamChunk) (lines : List String) (st : StreamState),
      (processLines decode lines st).builder = st.builder ++ assembledSpec decode lines) ∧
    streamAnswer decodeZaiFlat scenarioDLines = "" ∧
    streamAnswer decodeZaiNested scenarioDNestedLines = "Hello world" := by
  constructor
  · intro decode lines
    induction lines with
    | nil =>
      intro st
      rw [processLines, assembledSpec]
      simp only [List.filterMap_nil]
      rw [deltasUpToStop, strJoin, strAppend_empty]
    | cons line rest ih =>
      intro st
      rw [processLines, assembledSpec, List.filterMap_cons, lineEvent]
      by_cases hl : goTrim line.toList = []
      · simp only [hl, if_pos rfl]
        exact ih st
      · simp only [if_neg hl]
        by_cases hp : ("data: ".toList.isPrefixOf (goTrim line.toList)) = true
        · simp only [hp, not_true, if_false]
          by_cases hdone : String.mk (goTrim ((goTrim line.toList).drop 6)) = "[DONE]"
          · rw [if_pos hdone, if_pos hdone]
            exact (strAppend_empty st.builder).symm
          · rw [if_neg hdone, if_neg hdone]
            cases hdec : decode (String.mk (goTrim ((goTrim line.toList).drop 6))) with
            | none => exact ih st
            | some chunk =>
              cases hfin : chunk.data.done <;>
                cases hu : chunk.data.usage <;>
                  by_cases hdelta : chunk.data.deltaContent = "" <;>
                    simp [deltasUpToStop, strJoin, hfin, hu, hdelta, assembledSpec,
                      strAppend_empty, strEmpty_append, String.append_assoc, ih]
        · rw [if_pos hp, if_pos hp]
          exact ih st
  · decide

/-- Counterexample to claim C4 as stated: on the Scenario D stream the flat
payloads decode successfully, but into chunks whose nested delta-content is
empty (`delta_content` sits at top level, not inside the `"data"` object the
chunk type declares), so the read loop appends nothing and the assembled
answer is the empty string, not `"Hello world"`. -/
theorem streamReader_scenarioD_cex :
    decodeZaiFlat "\x7b\"delta_content\":\"Hello \"\x7d" =
      some ⟨"", ⟨"", "", false, none⟩⟩ ∧
    streamAnswer decodeZaiFlat scenarioDLines = "" ∧
    streamAnswer decodeZaiFlat scenarioDLines ≠ "Hello world" := by
  decide

/-! ### Retryability classification (C6) -/

/-- Claim C6: `isRetryableError` returns true for network-layer
timeout/temporary errors, for temporary/timeout DNS and connection errors,
for a bare `"EOF"`, and for each of the three liveness-timeout errors; it
returns false for every non-network error whose message is not `"EOF"` and
contains none of the three timeout substrings — in particular for the
decode-failure wrap, the non-200 status errors of both phases, and the
empty-session-id error, which therefore surface without further attempts. -/
theorem isRetryableError_classification :
    (∀ t p m, (t || p) = true → isRetryableError (some (.netErr t p m)) = true) ∧
    (∀ t p m, (t || p) = true → isRetryableError (some (.dnsErr t p m)) = true) ∧
    (∀ t p m, (t || p) = true → isRetryableError (some (.opErr t p m)) = true) ∧
    isRetryableError (some (.basic "EOF")) = true ∧
    isRetryableError (some noContentTimeoutErr) = true ∧
    isRetryableError (some incompleteTimeoutErr) = true ∧
    isRetryableError (some internalReadTimeoutErr) = true ∧
    (∀ e, isNetErrorCase e = false → errString e ≠ "EOF" →
      strContains (errString e) "AI response timeout" = false →
      strContains (errString e) "no content chunks received" = false →
      strContains (errString e) "response incomplete" = false →
      isRetryableError (some e) = false) ∧
    isRetryableError (some emptyChatIdErr) = false ∧
    isRetryableError
      (some (.basic "create chat failed with status 500: Internal Server Error")) = false ∧
    isRetryableError (some (.basic "completion failed with status 502: Bad Gateway")) = false ∧
    isRetryableError (some (.wrapped "failed to decode create chat response: "
      (.basic "unexpected end of JSON input"))) = false := by
  refine ⟨?_, ?_, ?_, by decide, by decide, by decide, by decide, ?_, by decide, by decide,
    by decide, by decide⟩
  · intro t p m h
    simp [isRetryableError, h]
  · intro t p m h
    simp [isRetryableError, h]
  · intro t p m h
    simp [isRetryableError, h]
  · intro e hcase heof h1 h2 h3
    cases e with
    | netErr t p m => simp [isNetErrorCase] at hcase
    | dnsErr t p m => simp [isNetErrorCase] at hcase
    | opErr t p m => simp [isNetErrorCase] at hcase
    | basic m => simp [isRetryableError, heof, h1, h2, h3]
    | wrapped w inner => simp [isRetryableError, heof, h1, h2, h3]

/-- Witness for C6: a timeout network error is retryable; a plain
unclassified error is not. -/
theorem isRetryableError_classification_witness :
    isRetryableError (some (.netErr true false "i/o timeout")) = true ∧
    isRetryableError (some (.basic "boom")) = false :=
  ⟨isRetryableError_classification.1 true false "i/o timeout" rfl,
   isRetryableError_classification.2.2.2.2.2.2.2.1 (.basic "boom") rfl (by decide) rfl rfl rfl⟩

/-! ### The backoff computation (C2) -/

theorem ratTrunc_nonneg_le {q : ℚ} (h : 0 ≤ q) :
    0 ≤ ratTrunc q ∧ (ratTrunc q : ℚ) ≤ q := by
  rw [ratTrunc, if_pos h]
  exact ⟨Int.floor_nonneg.mpr h, Int.floor_le q⟩

theorem ratTrunc_nonpos_le {q : ℚ} (h : q < 0) :
    ratTrunc q ≤ 0 ∧ q ≤ (ratTrunc q : ℚ) := by
  rw [ratTrunc, if_neg (by linarith)]
  exact ⟨Int.ceil_le.mpr (by exact_mod_cast h.le), Int.le_ceil q⟩

/-- Claim C2, amended: For every attempt `k`, the pre-jitter component equals
`min(ceiling, base × 2^k)`; for every sine value `s ∈ [-1, 1]` the jittered
delay lies within `[component/2, 3·component/2]` (stated over ℤ as
`component ≤ 2·delay ≤ 3·component`) and is never negative.  (The original
claim's final conjunct — the total delay never exceeds the ceiling — is
false: the clamp precedes the jitter; see the counterexample.) -/
theorem calculateRetryDelay_bounds (ai : AIClientCfg) (attempt : ℕ) (s : ℚ)
    (hbase : 0 ≤ ai.retryDelay) (hmax : 0 ≤ ai.maxRetryDelay)
    (hs1 : -1 ≤ s) (hs2 : s ≤ 1) :
    retryDelayComponent ai attempt = min ai.maxRetryDelay (ai.retryDelay * 2 ^ attempt) ∧
    calculateRetryDelay ai attempt s =
      retryDelayComponent ai attempt +
        ratTrunc ((retryDelayComponent ai attempt : ℚ) * (1 / 2) * s) ∧
    0 ≤ calculateRetryDelay ai attempt s ∧
    retryDelayComponent ai attempt ≤ 2 * calculateRetryDelay ai attempt s ∧
    2 * calculateRetryDelay ai attempt s ≤ 3 * retryDelayComponent ai attempt := by
  have hd0 : 0 ≤ ai.retryDelay * 2 ^ attempt := by positivity
  have hc0 : 0 ≤ retryDelayComponent ai attempt := by
    rw [retryDelayComponent]
    split_ifs <;> omega
  set c := retryDelayComponent ai attempt with hcdef
  have heq : calculateRetryDelay ai attempt s = c + ratTrunc ((c : ℚ) * (1 / 2) * s) := rfl
  have hq0 : (0 : ℚ) ≤ (c : ℚ) := by exact_mod_cast hc0
  have hqup : (c : ℚ) * (1 / 2) * s ≤ (c : ℚ) * (1 / 2) := by nlinarith
  have hqlo : -((c : ℚ) * (1 / 2)) ≤ (c : ℚ) * (1 / 2) * s := by nlinarith
  have hbound : c ≤ 2 * calculateRetryDelay ai attempt s ∧
      2 * calculateRetryDelay ai attempt s ≤ 3 * c := by
    rw [heq]
    rcases le_or_lt 0 ((c : ℚ) * (1 / 2) * s) with hq | hq
    · obtain ⟨ht0, htle⟩ := ratTrunc_nonneg_le hq
      have h2 : 2 * ratTrunc ((c : ℚ) * (1 / 2) * s) ≤ c := by
        have : (2 * ratTrunc ((c : ℚ) * (1 / 2) * s) : ℚ) ≤ (c : ℚ) := by nlinarith
        exact_mod_cast this
      omega
    · obtain ⟨ht0, htle⟩ := ratTrunc_nonpos_le hq
      have h2 : -c ≤ 2 * ratTrunc ((c : ℚ) * (1 / 2) * s) := by
        have : (-c : ℚ) ≤ (2 * ratTrunc ((c : ℚ) * (1 / 2) * s) : ℚ) := by nlinarith
        exact_mod_cast this
      omega
  refine ⟨?_, heq, ?_, hbound.1, hbound.2⟩
  · rw [hcdef, retryDelayComponent, min_def]
    split_ifs <;> omega
  · omega

/-- Counterexample to C2 as stated: at attempt 5 with the default
configuration and a sine value of `1/2`, the pre-jitter component is clamped
to the 30s ceiling, but the jitter is added *after* the clamp, so the total
delay is 37.5s — it exceeds the configured ceiling. -/
theorem calculateRetryDelay_ceiling_cex :
    (-1 : ℚ) ≤ 1 / 2 ∧ (1 / 2 : ℚ) ≤ 1 ∧
    calculateRetryDelay defaultCfg 5 (1 / 2) = 37500000000 ∧
    defaultCfg.maxRetryDelay = 30000000000 ∧
    defaultCfg.maxRetryDelay < calculateRetryDelay defaultCfg 5 (1 / 2) := by
  have hval : calculateRetryDelay defaultCfg 5 (1 / 2) = 37500000000 := by
    have h1 : calculateRetryDelay defaultCfg 5 (1 / 2) =
        30000000000 + ratTrunc ((30000000000 : ℚ) * (1 / 2) * (1 / 2)) := by
      rw [calculateRetryDelay]
      norm_num [defaultCfg]
    rw [h1, show ((30000000000 : ℚ) * (1 / 2) * (1 / 2)) = ((7500000000 : ℤ) : ℚ) by norm_num,
      ratTrunc, if_pos (by positivity), Int.floor_intCast]
    norm_num
  refine ⟨by norm_num, by norm_num, hval, rfl, by rw [hval]; norm_num [defaultCfg]⟩

/-- Witness for C2 (amended) at attempt 0 with sine value 0 under the default
configuration. -/
theorem calculateRetryDelay_bounds_witness :
    retryDelayComponent defaultCfg 0 =
      min defaultCfg.maxRetryDelay (defaultCfg.retryDelay * 2 ^ 0) ∧
    calculateRetryDelay defaultCfg 0 0 =
      retryDelayComponent defaultCfg 0 +
        ratTrunc ((retryDelayComponent defaultCfg 0 : ℚ) * (1 / 2) * 0) ∧
    0 ≤ calculateRetryDelay defaultCfg 0 0 ∧
    retryDelayComponent defaultCfg 0 ≤ 2 * calculateRetryDelay defaultCfg 0 0 ∧
    2 * calculateRetryDelay defaultCfg 0 0 ≤ 3 * retryDelayComponent defaultCfg 0 :=
  calculateRetryDelay_bounds defaultCfg 0 0 (by norm_num [defaultCfg])
    (by norm_num [defaultCfg]) (by norm_num) (by norm_num)

/-! ### `createChat` (C7) -/

theorem createChat_state (ai : AIClientCfg) (fm : String) (h : CreateHTTP) :
    (createChat ai fm h).2 = ai := by
  cases h with
  | netFail e => rfl
  | resp status body decoded =>
    simp only [createChat]
    split_ifs with h1
    · rfl
    · cases decoded with
      | error e => rfl
      | ok id0 =>
        show (if id0 = "" then (Except.error emptyChatIdErr, ai)
          else (Except.ok id0, ai)).2 = ai
        split_ifs <;> rfl

/-- Claim C7: `createChat` mutates no client state, and it returns a session id
exactly when the HTTP round trip produced status 200 with a decodable body
whose id field is non-empty; in that case the returned id is that (non-empty)
id.  Every other outcome — transport error, non-200 status, decode failure,
empty id — is an error. -/
theorem createChat_characterization (ai : AIClientCfg) (fm : String) (h : CreateHTTP) :
    (createChat ai fm h).2 = ai ∧
    ((∃ id, (createChat ai fm h).1 = .ok id) ↔
      ∃ body id, h = .resp 200 body (.ok id) ∧ id ≠ "") ∧
    (∀ id, (createChat ai fm h).1 = .ok id →
      id ≠ "" ∧ ∃ body, h = .resp 200 body (.ok id)) := by
  refine ⟨createChat_state ai fm h, ?_⟩
  cases h with
  | netFail e =>
    constructor
    · constructor
      · rintro ⟨id, hid⟩
        simp [createChat] at hid
      · rintro ⟨b, id, hresp, hne⟩
        simp at hresp
    · intro id hid
      simp [createChat] at hid
  | resp status body decoded =>
    by_cases hstat : status = 200
    · subst hstat
      cases decoded with
      | error e =>
        have hred : createChat ai fm (.resp 200 body (.error e)) =
            (.error (.wrapped "failed to decode create chat response: " e), ai) := by
          simp [createChat]
        constructor
        · constructor
          · rintro ⟨id, hid⟩
            rw [hred] at hid
            simp at hid
          · rintro ⟨b, id, hresp, hne⟩
            simp at hresp
        · intro id hid
          rw [hred] at hid
          simp at hid
      | ok id0 =>
        by_cases hid0 : id0 = ""
        · subst hid0
          have hred : createChat ai fm (.resp 200 body (.ok "")) =
              (.error emptyChatIdErr, ai) := by
            simp [createChat]
          constructor
          · constructor
            · rintro ⟨id, hid⟩
              rw [hred] at hid
              simp at hid
            · rintro ⟨b, id, hresp, hne⟩
              injection hresp with h1 h2 h3
              injection h3 with h4
              exact absurd h4.symm hne
          · intro id hid
            rw [hred] at hid
            simp at hid
        · have hred : createChat ai fm (.resp 200 body (.ok id0)) = (.ok id0, ai) := by
            simp [createChat, hid0]
          constructor
          · constructor
            · rintro ⟨id, hid⟩
              exact ⟨body, id0, rfl, hid0⟩
            · intro _
              exact ⟨id0, by rw [hred]⟩
          · intro id hid
            rw [hred] at hid
            simp only [Except.ok.injEq] at hid
            subst hid
            exact ⟨hid0, body, rfl⟩
    · have hred : createChat ai fm (.resp status body decoded) =
          (.error (.basic ("create chat failed with status " ++ toString status ++ ": " ++ body)),
            ai) := by
        simp [createChat, hstat]
      constructor
      · constructor
        · rintro ⟨id, hid⟩
          rw [hred] at hid
          simp at hid
        · rintro ⟨b, id, hresp, hne⟩
          injection hresp with h1 h2 h3
          exact absurd h1 hstat
      · intro id hid
        rw [hred] at hid
        simp at hid

/-- Witness for C7: a 200 response decoding to the non-empty id `"abc"`
yields that id and leaves the client untouched. -/
theorem createChat_characterization_witness :
    (createChat defaultCfg "hi" (.resp 200 "\x7b\"id\":\"abc\"\x7d" (.ok "abc"))).2 =
      defaultCfg ∧
    ("abc" ≠ "" ∧ ∃ body,
      (CreateHTTP.resp 200 "\x7b\"id\":\"abc\"\x7d" (.ok "abc")) =
        .resp 200 body (.ok "abc")) :=
  ⟨(createChat_characterization defaultCfg "hi"
      (.resp 200 "\x7b\"id\":\"abc\"\x7d" (.ok "abc"))).1,
   (createChat_characterization defaultCfg "hi"
      (.resp 200 "\x7b\"id\":\"abc\"\x7d" (.ok "abc"))).2.2 "abc" rfl⟩

/-! ### `Chat`: empty input and the `"hello"` fallback (C9, C10) -/

/-- Claim C9: Calling `Chat` with an empty message list returns the
`"no messages provided"` error immediately; the empty event trace shows that
no session was created, no HTTP call was issued, and no backoff sleep was
performed. -/
theorem chat_empty_messages (ai : AIClientCfg) (o : AttemptOracle) :
    Chat ai o [] = (.fail (.basic "no messages provided"), []) := rfl

/-- Claim C10: When the trimmed request holds no user-role message whose
clipped content is non-empty, `Chat` does not reject the request: it
proceeds into the retry loop with the literal `"hello"` as the session seed
message. -/
theorem chat_fallback_hello (ai : AIClientCfg) (o : AttemptOracle) (msgs : List ChatMessage)
    (hne : msgs ≠ [])
    (huser : ∀ m ∈ trimMessages msgs, m.role = "user" → clipUserInput m.content = "") :
    computeFirstUser (trimMessages msgs) = "hello" ∧
    Chat ai o msgs = chatLoop o ai.maxRetries "hello" (ai.maxRetries + 1) 0 none := by
  have h1 : computeFirstUser (trimMessages msgs) = "hello" := by
    rw [computeFirstUser]
    cases hf : (trimMessages msgs).find? (fun m => m.role == "user") with
    | none => rfl
    | some m =>
      have hmem := List.mem_of_find?_eq_some hf
      have hrole : m.role = "user" := by simpa using List.find?_some hf
      simp [huser m hmem hrole]
  refine ⟨h1, ?_⟩
  rw [Chat, if_neg (fun h => hne (List.length_eq_zero.mp h)), h1]

/-- Witness for C10: a single assistant message (no user message at all)
seeds the session with `"hello"`. -/
theorem chat_fallback_hello_witness :
    computeFirstUser (trimMessages [⟨"assistant", "x"⟩]) = "hello" :=
  (chat_fallback_hello defaultCfg
    ⟨fun _ _ => .error (.basic "EOF"), fun _ _ => .error (.basic "EOF")⟩
    [⟨"assistant", "x"⟩] (by simp) (by decide)).1

theorem chatLoop_all_fail_aux (o : AttemptOracle) (m : ℕ) (fm : String)
    (hfail : ∀ k, k ≤ m → ∃ pe : Bool × GoError, attemptErr o fm k = some pe ∧
      isRetryableError (some pe.2) = true) :
    ∀ (f a : ℕ) (prev : Option GoError), a + f = m →
      ∃ pe : Bool × GoError, attemptErr o fm m = some pe ∧
        (chatLoop o m fm (f + 1) a prev).1 =
          .fail (.wrapped (if pe.1 = true then "failed to create Z.ai chat: "
            else "failed to complete Z.ai chat: ") pe.2) := by
  intro f
  induction f with
  | zero =>
    intro a prev ha
    have ham : a = m := by omega
    subst ham
    obtain ⟨pe, hpe, hr⟩ := hfail a le_rfl
    refine ⟨pe, hpe, ?_⟩
    cases hc : o.create a fm with
    | error e =>
      simp only [attemptErr, hc, Option.some.injEq] at hpe
      subst hpe
      simp [chatLoop, hc]
    | ok id =>
      cases hs : o.stream a id with
      | error e =>
        simp only [attemptErr, hc, hs, Option.some.injEq] at hpe
        subst hpe
        simp [chatLoop, hc, hs]
      | ok pr =>
        simp [attemptErr, hc, hs] at hpe
  | succ f ih =>
    intro a prev ha
    obtain ⟨pe, hpe, hr⟩ := hfail a (by omega)
    have hne : ¬ a = m := by omega
    obtain ⟨pe', hpe', hres⟩ := ih (a + 1) none (by omega)
    refine ⟨pe', hpe', ?_⟩
    cases hc : o.create a fm with
    | error e =>
      simp only [attemptErr, hc, Option.some.injEq] at hpe
      subst hpe
      have hcond : ¬ (¬ isRetryableError (some e) = true ∨ a = m) := by
        push_neg
        exact ⟨by simp [hr], hne⟩
      simp only [chatLoop, hc, if_neg hcond]
      obtain ⟨pe'', hpe'', hres''⟩ := ih (a + 1) (some e) (by omega)
      have heq : pe'' = pe' := by
        rw [hpe''] at hpe'
        injection hpe'
      subst heq
      exact hres''
    | ok id =>
      cases hs : o.stream a id with
      | error e =>
        simp only [attemptErr, hc, hs, Option.some.injEq] at hpe
        subst hpe
        have hcond : ¬ (¬ isRetryableError (some e) = true ∨ a = m) := by
          push_neg
          exact ⟨by simp [hr], hne⟩
        simp only [chatLoop, hc, hs, if_neg hcond]
        obtain ⟨pe'', hpe'', hres''⟩ := ih (a + 1) (some e) (by omega)
        have heq : pe'' = pe' := by
          rw [hpe''] at hpe'
          injection hpe'
        subst heq
        exact hres''
      | ok pr =>
        simp [attemptErr, hc, hs] at hpe

/-- Claim C1, amended: When every one of the `maxRetries + 1` attempts fails
with a retryable error, `Chat` returns a wrapped error naming the phase and
the final underlying cause — `"failed to create Z.ai chat: …"` or
`"failed to complete Z.ai chat: …"` wrapping the last attempt's error — but
*without* the attempt count: the `"failed after N attempts"` wrapper of the
loop's fall-through return is unreachable, because the last iteration
returns the phase error directly (see the counterexample). -/
theorem chat_exhaustion_wraps_last_error (ai : AIClientCfg) (o : AttemptOracle)
    (msgs : List ChatMessage) (hne : msgs ≠ [])
    (hfail : ∀ k, k ≤ ai.maxRetries → ∃ pe : Bool × GoError,
      attemptErr o (computeFirstUser (trimMessages msgs)) k = some pe ∧
      isRetryableError (some pe.2) = true) :
    ∃ pe : Bool × GoError,
      attemptErr o (computeFirstUser (trimMessages msgs)) ai.maxRetries = some pe ∧
      (Chat ai o msgs).1 =
        .fail (.wrapped (if pe.1 = true then "failed to create Z.ai chat: "
          else "failed to complete Z.ai chat: ") pe.2) := by
  rw [Chat, if_neg (fun h => hne (List.length_eq_zero.mp h))]
  exact chatLoop_all_fail_aux o ai.maxRetries (computeFirstUser (trimMessages msgs))
    hfail ai.maxRetries 0 none (by omega)

/-- Counterexample to C1 as stated: with the default configuration all
four attempts fail with the retryable error `EOF` (the trace shows four
session-creation calls and three backoff sleeps), yet the returned error is
`"failed to create Z.ai chat: EOF"` — its message names the final cause but
contains no digit and no `"attempt"` substring, so it does not name the
attempt count. -/
theorem chat_exhaustion_claim_cex :
    Chat defaultCfg oEOF [⟨"user", "hi"⟩] =
      (.fail (.wrapped "failed to create Z.ai chat: " (.basic "EOF")),
       [.createCall 0 "hi" (.error (.basic "EOF")), .slept 0,
        .createCall 1 "hi" (.error (.basic "EOF")), .slept 1,
        .createCall 2 "hi" (.error (.basic "EOF")), .slept 2,
        .createCall 3 "hi" (.error (.basic "EOF"))]) ∧
    isRetryableError (some (.basic "EOF")) = true ∧
    ((errString (.wrapped "failed to create Z.ai chat: " (.basic "EOF"))).toList.filter
      Char.isDigit) = [] ∧
    strContains (errString (.wrapped "failed to create Z.ai chat: " (.basic "EOF")))
      "attempt" = false := by
  decide

/-- Witness for C1 (amended) in the all-`EOF` world. -/
theorem chat_exhaustion_wraps_last_error_witness :
    ∃ pe : Bool × GoError,
      attemptErr oEOF (computeFirstUser (trimMessages [⟨"user", "hi"⟩]))
        defaultCfg.maxRetries = some pe ∧
      (Chat defaultCfg oEOF [⟨"user", "hi"⟩]).1 =
        .fail (.wrapped (if pe.1 = true then "failed to create Z.ai chat: "
          else "failed to complete Z.ai chat: ") pe.2) :=
  chat_exhaustion_wraps_last_error defaultCfg oEOF [⟨"user", "hi"⟩] (by simp)
    (fun k _ => ⟨(true, .basic "EOF"), rfl, rfl⟩)

theorem evOK_mono (o : AttemptOracle) (fm : String) {a b : ℕ} (h : b ≤ a) :
    ∀ ev, evOK o fm a ev → evOK o fm b ev := by
  intro ev hev
  cases ev with
  | createCall k s r => exact ⟨le_trans h hev.1, hev.2⟩
  | streamCall k id => exact ⟨le_trans h hev.1, hev.2⟩
  | slept k => exact le_trans h hev

theorem chatLoop_events (o : AttemptOracle) (m : ℕ) (fm : String) :
    ∀ (fuel a : ℕ) (prev : Option GoError),
      ∀ ev ∈ (chatLoop o m fm fuel a prev).2, evOK o fm a ev := by
  intro fuel
  induction fuel with
  | zero =>
    intro a prev ev hev
    simp [chatLoop] at hev
  | succ fuel ih =>
    intro a prev ev hev
    cases hc : o.create a fm with
    | error e =>
      simp only [chatLoop, hc] at hev
      split_ifs at hev with hcond
      · simp only [List.mem_singleton] at hev
        subst hev
        exact ⟨le_rfl, rfl, hc.symm⟩
      · simp only [List.mem_cons] at hev
        rcases hev with rfl | rfl | hev
        · exact ⟨le_rfl, rfl, hc.symm⟩
        · exact le_rfl
        · exact evOK_mono o fm (by omega) ev (ih (a + 1) (some e) ev hev)
    | ok id =>
      cases hs : o.stream a id with
      | error e =>
        simp only [chatLoop, hc, hs] at hev
        split_ifs at hev with hcond
        · simp only [List.mem_cons, List.not_mem_nil, or_false] at hev
          rcases hev with rfl | rfl
          · exact ⟨le_rfl, rfl, hc.symm⟩
          · exact ⟨le_rfl, hc⟩
        · simp only [List.mem_cons] at hev
          rcases hev with rfl | rfl | rfl | hev
          · exact ⟨le_rfl, rfl, hc.symm⟩
          · exact ⟨le_rfl, hc⟩
          · exact le_rfl
          · exact evOK_mono o fm (by omega) ev (ih (a + 1) (some e) ev hev)
      | ok pr =>
        obtain ⟨ans, us⟩ := pr
        simp only [chatLoop, hc, hs] at hev
        simp only [List.mem_cons, List.not_mem_nil, or_false] at hev
        rcases hev with rfl | rfl
        · exact ⟨le_rfl, rfl, hc.symm⟩
        · exact ⟨le_rfl, hc⟩

/-- Attempt index bound: every event of a run starting at attempt `a` has
attempt index ≥ `a`. -/
theorem chatLoop_events_idx (o : AttemptOracle) (m : ℕ) (fm : String)
    (fuel a : ℕ) (prev : Option GoError) (ev : ChatEvent)
    (hev : ev ∈ (chatLoop o m fm fuel a prev).2) : a ≤ ev.attemptIdx := by
  have h := chatLoop_events o m fm fuel a prev ev hev
  cases ev with
  | createCall k s r => exact h.1
  | streamCall k id => exact h.1
  | slept k => exact h

/-- Events at the attempt that has already been passed cannot occur. -/
theorem chatLoop_countP_zero (o : AttemptOracle) (m : ℕ) (fm : String)
    (fuel a : ℕ) (prev : Option GoError) (k : ℕ) (hk : k < a)
    (p : ChatEvent → Bool) (hp : ∀ ev, p ev = true → ev.attemptIdx = k) :
    ((chatLoop o m fm fuel a prev).2.countP p) = 0 := by
  rw [List.countP_eq_zero]
  intro ev hev hpev
  have h1 := chatLoop_events_idx o m fm fuel a prev ev hev
  have h2 := hp ev hpev
  omega

theorem isCreateAt_idx (k : ℕ) : ∀ ev, isCreateAt k ev = true → ev.attemptIdx = k := by
  intro ev h
  cases ev with
  | createCall k' s r => simpa [isCreateAt, ChatEvent.attemptIdx] using h
  | streamCall k' id => simp [isCreateAt] at h
  | slept k' => simp [isCreateAt] at h

theorem isStreamAt_idx (k : ℕ) : ∀ ev, isStreamAt k ev = true → ev.attemptIdx = k := by
  intro ev h
  cases ev with
  | createCall k' s r => simp [isStreamAt] at h
  | streamCall k' id => simpa [isStreamAt, ChatEvent.attemptIdx] using h
  | slept k' => simp [isStreamAt] at h

theorem chatLoop_count (o : AttemptOracle) (m : ℕ) (fm : String) :
    ∀ (fuel a : ℕ) (prev : Option GoError) (k : ℕ),
      ((chatLoop o m fm fuel a prev).2.countP (isCreateAt k)) ≤ 1 ∧
      ((chatLoop o m fm fuel a prev).2.countP (isStreamAt k)) ≤ 1 := by
  intro fuel
  induction fuel with
  | zero =>
    intro a prev k
    simp [chatLoop]
  | succ fuel ih =>
    intro a prev k
    cases hc : o.create a fm with
    | error e =>
      simp only [chatLoop, hc]
      split_ifs with hcond
      · rcases eq_or_ne a k with hak | hak <;>
          simp [List.countP_cons, List.countP_nil, isCreateAt, isStreamAt, hak]
      · rcases Nat.lt_or_ge k (a + 1) with hk | hk
        · have hz1 := chatLoop_countP_zero o m fm fuel (a + 1) (some e) k hk
            (isCreateAt k) (isCreateAt_idx k)
          have hz2 := chatLoop_countP_zero o m fm fuel (a + 1) (some e) k hk
            (isStreamAt k) (isStreamAt_idx k)
          rcases eq_or_ne a k with hak | hak
          · subst hak
            simp [List.countP_cons, List.countP_nil, hz1, hz2, isCreateAt, isStreamAt]
          · simp [List.countP_cons, List.countP_nil, hz1, hz2, isCreateAt, isStreamAt, hak]
        · have hak : a ≠ k := by omega
          constructor
          · simp [List.countP_cons, isCreateAt, isStreamAt, hak]
            exact (ih (a + 1) (some e) k).1
          · simp [List.countP_cons, isCreateAt, isStreamAt, hak]
            exact (ih (a + 1) (some e) k).2
    | ok id =>
      cases hs : o.stream a id with
      | error e =>
        simp only [chatLoop, hc, hs]
        split_ifs with hcond
        · rcases eq_or_ne a k with hak | hak <;>
            simp [List.countP_cons, List.countP_nil, isCreateAt, isStreamAt, hak]
        · rcases Nat.lt_or_ge k (a + 1) with hk | hk
          · have hz1 := chatLoop_countP_zero o m fm fuel (a + 1) (some e) k hk
              (isCreateAt k) (isCreateAt_idx k)
            have hz2 := chatLoop_countP_zero o m fm fuel (a + 1) (some e) k hk
              (isStreamAt k) (isStreamAt_idx k)
            rcases eq_or_ne a k with hak | hak
            · subst hak
              simp [List.countP_cons, List.countP_nil, hz1, hz2, isCreateAt, isStreamAt]
            · simp [List.countP_cons, List.countP_nil, hz1, hz2, isCreateAt, isStreamAt,
                hak]
          · have hak : a ≠ k := by omega
            constructor
            · simp [List.countP_cons, isCreateAt, isStreamAt, hak]
              exact (ih (a + 1) (some e) k).1
            · simp [List.countP_cons, isCreateAt, isStreamAt, hak]
              exact (ih (a + 1) (some e) k).2
      | ok pr =>
        obtain ⟨ans, us⟩ := pr
        simp only [chatLoop, hc, hs]
        rcases eq_or_ne a k with hak | hak <;>
          simp [List.countP_cons, List.countP_nil, isCreateAt, isStreamAt, hak]

theorem chatLoop_stream_create (o : AttemptOracle) (m : ℕ) (fm : String) :
    ∀ (fuel a : ℕ) (prev : Option GoError) (k : ℕ) (id : String),
      ChatEvent.streamCall k id ∈ (chatLoop o m fm fuel a prev).2 →
      ChatEvent.createCall k fm (.ok id) ∈ (chatLoop o m fm fuel a prev).2 := by
  intro fuel
  induction fuel with
  | zero =>
    intro a prev k id h
    simp [chatLoop] at h
  | succ fuel ih =>
    intro a prev k id h
    cases hc : o.create a fm with
    | error e =>
      simp only [chatLoop, hc] at h ⊢
      split_ifs at h ⊢ with hcond
      · simp at h
      · simp only [List.mem_cons] at h ⊢
        rcases h with h | h | h
        · exact absurd h (by simp)
        · exact absurd h (by simp)
        · exact Or.inr (Or.inr (ih (a + 1) (some e) k id h))
    | ok id0 =>
      cases hs : o.stream a id0 with
      | error e =>
        simp only [chatLoop, hc, hs] at h ⊢
        split_ifs at h ⊢ with hcond
        · simp only [List.mem_cons, List.not_mem_nil, or_false] at h ⊢
          rcases h with h | h
          · exact absurd h (by simp)
          · injection h with h1 h2
            subst h1
            subst h2
            exact Or.inl rfl
        · simp only [List.mem_cons] at h ⊢
          rcases h with h | h | h | h
          · exact absurd h (by simp)
          · injection h with h1 h2
            subst h1
            subst h2
            exact Or.inl rfl
          · exact absurd h (by simp)
          · exact Or.inr (Or.inr (Or.inr (ih (a + 1) (some e) k id h)))
      | ok pr =>
        obtain ⟨ans, us⟩ := pr
        simp only [chatLoop, hc, hs] at h ⊢
        simp only [List.mem_cons, List.not_mem_nil, or_false] at h ⊢
        rcases h with h | h
        · exact absurd h (by simp)
        · injection h with h1 h2
          subst h1
          subst h2
          exact Or.inl rfl

theorem chatLoop_has_create (o : AttemptOracle) (m : ℕ) (fm : String) :
    ∀ (fuel a : ℕ) (prev : Option GoError) (ev : ChatEvent),
      ev ∈ (chatLoop o m fm fuel a prev).2 →
      ∃ r, ChatEvent.createCall ev.attemptIdx fm r ∈ (chatLoop o m fm fuel a prev).2 := by
  intro fuel
  induction fuel with
  | zero =>
    intro a prev ev h
    simp [chatLoop] at h
  | succ fuel ih =>
    intro a prev ev h
    cases hc : o.create a fm with
    | error e =>
      simp only [chatLoop, hc] at h ⊢
      split_ifs at h ⊢ with hcond
      · simp only [List.mem_singleton] at h
        subst h
        exact ⟨.error e, by simp [ChatEvent.attemptIdx]⟩
      · simp only [List.mem_cons] at h ⊢
        rcases h with rfl | rfl | h
        · exact ⟨.error e, Or.inl rfl⟩
        · exact ⟨.error e, Or.inl rfl⟩
        · obtain ⟨r, hr⟩ := ih (a + 1) (some e) ev h
          exact ⟨r, Or.inr (Or.inr hr)⟩
    | ok id0 =>
      cases hs : o.stream a id0 with
      | error e =>
        simp only [chatLoop, hc, hs] at h ⊢
        split_ifs at h ⊢ with hcond
        · simp only [List.mem_cons, List.not_mem_nil, or_false] at h ⊢
          rcases h with rfl | rfl
          · exact ⟨.ok id0, Or.inl rfl⟩
          · exact ⟨.ok id0, Or.inl rfl⟩
        · simp only [List.mem_cons] at h ⊢
          rcases h with rfl | rfl | rfl | h
          · exact ⟨.ok id0, Or.inl rfl⟩
          · exact ⟨.ok id0, Or.inl rfl⟩
          · exact ⟨.ok id0, Or.inl rfl⟩
          · obtain ⟨r, hr⟩ := ih (a + 1) (some e) ev h
            exact ⟨r, Or.inr (Or.inr (Or.inr hr))⟩
      | ok pr =>
        obtain ⟨ans, us⟩ := pr
        simp only [chatLoop, hc, hs] at h ⊢
        simp only [List.mem_cons, List.not_mem_nil, or_false] at h ⊢
        rcases h with rfl | rfl
        · exact ⟨.ok id0, Or.inl rfl⟩
        · exact ⟨.ok id0, Or.inl rfl⟩

/-- Claim C8: In every execution of the retry loop: a session-creation call is
made with the fixed seed and records exactly the oracle's result for its own
attempt; each attempt performs at most one creation call and at most one
streaming call; the session id handed to `streamCompletion` at attempt `k` is
precisely the id `createChat` returned at attempt `k` (so a failed attempt's
id is never retried against, and no id crosses attempts); and every attempt
that produced any event at all performed a creation call. -/
theorem chat_one_session_per_attempt (o : AttemptOracle) (m : ℕ) (fm : String) :
    (∀ k s r, ChatEvent.createCall k s r ∈ (chatLoop o m fm (m + 1) 0 none).2 →
      s = fm ∧ r = o.create k fm) ∧
    (∀ k, ((chatLoop o m fm (m + 1) 0 none).2.countP (isCreateAt k)) ≤ 1 ∧
      ((chatLoop o m fm (m + 1) 0 none).2.countP (isStreamAt k)) ≤ 1) ∧
    (∀ k id, ChatEvent.streamCall k id ∈ (chatLoop o m fm (m + 1) 0 none).2 →
      o.create k fm = .ok id ∧
      ChatEvent.createCall k fm (.ok id) ∈ (chatLoop o m fm (m + 1) 0 none).2) ∧
    (∀ ev, ev ∈ (chatLoop o m fm (m + 1) 0 none).2 →
      ∃ r, ChatEvent.createCall ev.attemptIdx fm r ∈ (chatLoop o m fm (m + 1) 0 none).2) := by
  refine ⟨?_, ?_, ?_, ?_⟩
  · intro k s r h
    exact (chatLoop_events o m fm (m + 1) 0 none _ h).2
  · intro k
    exact chatLoop_count o m fm (m + 1) 0 none k
  · intro k id h
    exact ⟨(chatLoop_events o m fm (m + 1) 0 none _ h).2,
      chatLoop_stream_create o m fm (m + 1) 0 none k id h⟩
  · intro ev h
    exact chatLoop_has_create o m fm (m + 1) 0 none ev h

/-- Witness for C8: in the all-success world the first attempt streams
against exactly the session it created. -/
theorem chat_one_session_per_attempt_witness :
    oGood.create 0 "hello" = .ok "sid-1" ∧
    ChatEvent.createCall 0 "hello" (.ok "sid-1") ∈ (chatLoop oGood 3 "hello" 4 0 none).2 :=
  (chat_one_session_per_attempt oGood 3 "hello").2.2.1 0 "sid-1" (by decide)

end GoBrev
